import Mathlib

/-!
# Verification of `bads.py`

A shallow embedding of the command-line adapter `src/bads.py`, which bridges
the external BADS optimization library to an interactive evaluator over
standard input/output, together with proofs of the specified properties.

Modelling conventions:
* Python values relevant to the script are embedded as the inductive `PyVal`;
  numpy arrays are `NpArr` trees of float scalars.
* Python floats are idealized as exact values (`PFloat`): a rational, or one
  of the special values `inf`, `-inf`, `nan`.
* A JSON document is modelled as its value tree `JVal` (the textual grammar is
  standard and injective, so the string and the tree are interchangeable);
  `json.dumps` with `cls=NumpyEncoder` is `dumps`, `json.loads` is `loads`.
* Exceptions are modelled with `Except PyErr`.
* The BADS library itself is external to the repository and is treated as an
  opaque schedule (`Sched`): the sequence of points at which it invokes the
  objective callback, and the result mapping it returns.
-/

/-- Idealized Python float: an exact finite value, or a special value.
`float('nan')` is one abstract value `nan` (object identity is not modelled). -/
inductive PFloat where
  | finite : Rat → PFloat
  | inf : PFloat
  | negInf : PFloat
  | nan : PFloat
deriving DecidableEq, Repr

/-- Exceptions that the script can raise. -/
inductive PyErr where
  | jsonDecodeError : PyErr
  | keyError : String → PyErr
  | typeError : PyErr
  | valueError : PyErr
  | eofError : PyErr
  | nameError : String → PyErr
deriving DecidableEq, Repr

/-- A numpy `ndarray` with float64 entries, as a nesting tree.
`scalar` is a zero-dimensional array; `dim` stacks sub-arrays. -/
inductive NpArr where
  | scalar : PFloat → NpArr
  | dim : List NpArr → NpArr

/-- A JSON value tree.  `jInt` is a number written without decimal point or
exponent (decoded by Python as `int`), `jNum` one written in float form
(decoded as `float`; `Infinity`/`NaN` included, as emitted by `json.dumps`). -/
inductive JVal where
  | jInt : Int → JVal
  | jNum : PFloat → JVal
  | jStr : String → JVal
  | jBool : Bool → JVal
  | jNull : JVal
  | jArr : List JVal → JVal
  | jObj : List (String × JVal) → JVal

/-- Python values that can appear in the script: plain ints, floats, strings,
bools, None, lists, string-keyed dicts, numpy values, and anything else the
json module cannot encode (`opaqueObj`, carrying its `str()` form).
`npInt32` stands for a numpy scalar type other than `np.int64`/`np.float64`. -/
inductive PyVal where
  | pyInt : Int → PyVal
  | pyFloat : PFloat → PyVal
  | pyStr : String → PyVal
  | pyBool : Bool → PyVal
  | pyNone : PyVal
  | pyList : List PyVal → PyVal
  | pyDict : List (String × PyVal) → PyVal
  | npArray : NpArr → PyVal
  | npInt64 : Int → PyVal
  | npFloat64 : PFloat → PyVal
  | npInt32 : Int → PyVal
  | opaqueObj : String → PyVal

/-! ## Python `float(str)` parsing

`target` returns `float(input())`.  `float` on a string strips surrounding
whitespace, then accepts an optional sign followed by either `inf`,
`infinity` or `nan` (case-insensitive), or a decimal literal
`digits [. digits] [(e|E) [sign] digits]` with at least one mantissa digit,
where underscores may separate digits within a digit group. -/

/-- Whitespace characters stripped by Python's `float(str)`. -/
def isPySpace (c : Char) : Bool :=
  c == ' ' || c == '\t' || c == '\n' || c == '\r' || c == '\x0b' || c == '\x0c'

/-- Strip leading and trailing `isPySpace` characters. -/
def pyStrip (cs : List Char) : List Char :=
  ((cs.dropWhile isPySpace).reverse.dropWhile isPySpace).reverse

/-- Consume an optional sign; return (isNegative, rest). -/
def parseSign : List Char → Bool × List Char
  | '-' :: cs => (true, cs)
  | '+' :: cs => (false, cs)
  | cs => (false, cs)

/-- Numeric value of a decimal digit character. -/
def digVal (c : Char) : Nat := c.toNat - '0'.toNat

/-- Consume a maximal run of decimal digits in which single underscores may
appear between digits.  Accumulates the value `v` and digit count `n`;
returns (value, digit count, rest).  An underscore not preceded (`n = 0`)
or not followed by a digit is not consumed. -/
def takeDigits : List Char → Nat → Nat → Nat × Nat × List Char
  | [], v, n => (v, n, [])
  | c :: cs, v, n =>
    if c.isDigit then takeDigits cs (10 * v + digVal c) (n + 1)
    else if c == '_' && n != 0 then
      match cs with
      | d :: cs' =>
        if d.isDigit then takeDigits cs' (10 * v + digVal d) (n + 1)
        else (v, n, c :: cs)
      | [] => (v, n, c :: cs)
    else (v, n, c :: cs)

/-- Parse the optional exponent part after the mantissa: the end of input
(exponent `0`) or `e`/`E`, an optional sign and a nonempty digit group that
must consume the remaining input. -/
def parseExp (cs : List Char) : Option Int :=
  match cs with
  | [] => some 0
  | c :: cs1 =>
    if c == 'e' || c == 'E' then
      let (eneg, cs2) := parseSign cs1
      let (ev, ne, rest) := takeDigits cs2 0 0
      if ne == 0 || !rest.isEmpty then none
      else some (if eneg then -(ev : Int) else (ev : Int))
    else none

/-- Parse an unsigned decimal literal `digits [. digits] [exp]` with at least
one mantissa digit, consuming all of `cs`; its exact rational value is
`(intpart·10^nf + fracpart) · 10^(exp−nf)`. -/
def parseNumber (cs : List Char) : Option Rat :=
  let (iv, ni, r1) := takeDigits cs 0 0
  let (fv, nf, r2) :=
    match r1 with
    | '.' :: cs1 => takeDigits cs1 0 0
    | _ => (0, 0, r1)
  if ni + nf == 0 then none
  else
    match parseExp r2 with
    | none => none
    | some e =>
      let num := Int.ofNat (iv * (10 : Nat) ^ nf + fv)
      some (if 0 ≤ e then mkRat (num * Int.ofNat ((10 : Nat) ^ e.toNat)) ((10 : Nat) ^ nf)
            else mkRat num ((10 : Nat) ^ nf * (10 : Nat) ^ (-e).toNat))

/-- Python's `float(str)`: `some` value on the strings `float` accepts,
`none` exactly when `float` raises `ValueError`. -/
def pyFloat (s : String) : Option PFloat :=
  let cs := pyStrip s.data
  let (neg, cs1) := parseSign cs
  let low := cs1.map Char.toLower
  if low == "inf".data || low == "infinity".data then
    some (if neg then PFloat.negInf else PFloat.inf)
  else if low == "nan".data then some PFloat.nan
  else (parseNumber cs1).map fun q =>
    PFloat.finite (if neg then -q else q)

/-! ## The numpy-aware JSON serializer (`NumpyEncoder`, `jsonify`) -/

mutual

/-- numpy's `ndarray.tolist()`: nested plain Python lists of Python floats. -/
def NpArr.tolist : NpArr → PyVal
  | .scalar q => .pyFloat q
  | .dim xs => .pyList (NpArr.tolistList xs)

/-- `tolist` mapped over the sub-arrays of a dimension. -/
def NpArr.tolistList : List NpArr → List PyVal
  | [] => []
  | a :: as => NpArr.tolist a :: NpArr.tolistList as

end

/-- `NumpyEncoder.default` from `bads.py`: converts an `np.ndarray` via
`tolist()`, an `np.int64` via `int()`, an `np.float64` via `float()`, and
otherwise defers to `json.JSONEncoder.default`, which raises `TypeError`
(modelled as `none`). -/
def NumpyEncoder.default : PyVal → Option PyVal
  | .npArray a => some a.tolist
  | .npInt64 n => some (.pyInt n)
  | .npFloat64 q => some (.pyFloat q)
  | _ => none

mutual

/-- `json.dumps(obj, cls=NumpyEncoder)`, as the JSON value tree of the
produced text: ints and floats become JSON numbers (in int and float form
respectively), strings, bools, `None`, lists and dicts their JSON forms;
for any other object the encoder serializes `NumpyEncoder.default obj`
(an `np.ndarray` becomes the nested-array serialization of its `tolist()`,
see `dumpsNp`; `np.int64`/`np.float64` become numbers), and when `default`
raises `TypeError` — every remaining type — the result is `none`. -/
def dumps : PyVal → Option JVal
  | .pyInt n => some (.jInt n)
  | .pyFloat q => some (.jNum q)
  | .pyStr s => some (.jStr s)
  | .pyBool b => some (.jBool b)
  | .pyNone => some .jNull
  | .pyList xs =>
    match dumpsList xs with
    | some js => some (.jArr js)
    | none => none
  | .pyDict kvs =>
    match dumpsDict kvs with
    | some js => some (.jObj js)
    | none => none
  | .npArray a => some (dumpsNp a)
  | .npInt64 n => some (.jInt n)
  | .npFloat64 q => some (.jNum q)
  | .npInt32 _ => none
  | .opaqueObj _ => none

/-- Serialization of the elements of a list; fails if any element fails. -/
def dumpsList : List PyVal → Option (List JVal)
  | [] => some []
  | x :: xs =>
    match dumps x, dumpsList xs with
    | some j, some js => some (j :: js)
    | _, _ => none

/-- Serialization of the entries of a dict; fails if any value fails. -/
def dumpsDict : List (String × PyVal) → Option (List (String × JVal))
  | [] => some []
  | (k, v) :: kvs =>
    match dumps v, dumpsDict kvs with
    | some j, some js => some ((k, j) :: js)
    | _, _ => none

/-- Serialization of `a.tolist()`: a nested JSON array of numbers. -/
def dumpsNp : NpArr → JVal
  | .scalar q => .jNum q
  | .dim xs => .jArr (dumpsNpList xs)

/-- `dumpsNp` mapped over the sub-arrays of a dimension. -/
def dumpsNpList : List NpArr → List JVal
  | [] => []
  | a :: as => dumpsNp a :: dumpsNpList as

end

mutual

/-- `json.loads` on a JSON document: numbers in int form decode to Python
ints, numbers in float form to floats, arrays to lists, objects to dicts. -/
def loads : JVal → PyVal
  | .jInt n => .pyInt n
  | .jNum q => .pyFloat q
  | .jStr s => .pyStr s
  | .jBool b => .pyBool b
  | .jNull => .pyNone
  | .jArr js => .pyList (loadsList js)
  | .jObj kvs => .pyDict (loadsDict kvs)

/-- `loads` mapped over the elements of an array. -/
def loadsList : List JVal → List PyVal
  | [] => []
  | j :: js => loads j :: loadsList js

/-- `loads` mapped over the entries of an object. -/
def loadsDict : List (String × JVal) → List (String × PyVal)
  | [] => []
  | (k, j) :: kvs => (k, loads j) :: loadsDict kvs

end

/-- `jsonify` from `bads.py`: `try: return json.dumps(obj, cls=NumpyEncoder)`.
When `dumps` raises, the `except` branch first evaluates
`logging.exception(...)` — but `logging` is never imported in `bads.py`
(its imports are `pybads`, `numpy`, `json`, `sys`), so that expression raises
`NameError: name 'logging' is not defined` and the `return str(obj)` line is
never reached; the `NameError` propagates out of `jsonify`. -/
def jsonify (obj : PyVal) : Except PyErr JVal :=
  match dumps obj with
  | some j => Except.ok j
  | none => Except.error (PyErr.nameError "logging")

/-! ## The objective callback and the driver -/

/-- One line of the stdout protocol: `REQUEST_EVALUATION <point>` carrying
`x.tolist()` (a plain list of numbers), or `FINAL_RESULT <json>`. -/
inductive OutLine where
  | request : List PFloat → OutLine
  | finalResult : JVal → OutLine

/-- `target` from `bads.py`: prints `REQUEST_EVALUATION x.tolist()` and
returns `float(input())`.  `x` is the 1-D float array passed by the
optimizer, given here as its `tolist()` form, a plain list of floats.
`stdin` is the list of remaining reply lines; `input()` at end of input
raises `EOFError`, and `float` on an unparsable reply raises `ValueError`.
Returns the emitted line, and either the parsed objective value paired with
the remaining stdin, or the exception. -/
def target (x : List PFloat) (stdin : List String) :
    OutLine × Except PyErr (PFloat × List String) :=
  (OutLine.request x,
    match stdin with
    | [] => Except.error PyErr.eofError
    | line :: rest =>
      match pyFloat line with
      | some v => Except.ok (v, rest)
      | none => Except.error PyErr.valueError)

/-- The optimizer's evaluation loop as seen by the adapter: the external BADS
library (an opaque capability, spec §6) invokes `target` once per candidate
point, synchronously and sequentially; an exception raised by `target`
propagates and stops the loop.  Returns the request lines emitted and either
the collected objective values with the remaining stdin, or the exception. -/
def runEvals (points : List (List PFloat)) (stdin : List String) :
    List OutLine × Except PyErr (List PFloat × List String) :=
  match points with
  | [] => ([], Except.ok ([], stdin))
  | x :: rest =>
    let (line, r) := target x stdin
    match r with
    | Except.error e => ([line], Except.error e)
    | Except.ok (v, stdin1) =>
      let (lines, r1) := runEvals rest stdin1
      match r1 with
      | Except.error e => (line :: lines, Except.error e)
      | Except.ok (vs, stdin2) => (line :: lines, Except.ok (v :: vs, stdin2))

/-- Python subscript `conf[k]` on a decoded JSON value: key lookup on an
object, raising `KeyError` when the key is absent; subscripting any
non-object decoded value with a string raises `TypeError`. -/
def getItem (conf : JVal) (k : String) : Except PyErr JVal :=
  match conf with
  | .jObj kvs =>
    match kvs.find? (fun p => p.1 == k) with
    | some p => Except.ok p.2
    | none => Except.error (PyErr.keyError k)
  | _ => Except.error PyErr.typeError

/-- The required configuration keys, in the order line 29 of `bads.py`
evaluates them. -/
def requiredKeys : List String :=
  ["x0", "lower_bounds", "upper_bounds",
   "plausible_lower_bounds", "plausible_upper_bounds"]

/-- The five configuration lookups of line 29, evaluated left to right before
the `BADS` constructor is entered: `conf["x0"]`, `conf["lower_bounds"]`,
`conf["upper_bounds"]`, `conf["plausible_lower_bounds"]`,
`conf["plausible_upper_bounds"]`. -/
def loadBounds (conf : JVal) : Except PyErr (JVal × JVal × JVal × JVal × JVal) :=
  match getItem conf "x0" with
  | Except.error e => Except.error e
  | Except.ok x0 =>
    match getItem conf "lower_bounds" with
    | Except.error e => Except.error e
    | Except.ok lb =>
      match getItem conf "upper_bounds" with
      | Except.error e => Except.error e
      | Except.ok ub =>
        match getItem conf "plausible_lower_bounds" with
        | Except.error e => Except.error e
        | Except.ok plb =>
          match getItem conf "plausible_upper_bounds" with
          | Except.error e => Except.error e
          | Except.ok pub => Except.ok (x0, lb, ub, plb, pub)

/-- Python `del d[k]` on a dict (keys are unique): removes the entry for `k`,
raising `KeyError` when `k` is absent. -/
def delItem (kvs : List (String × PyVal)) (k : String) :
    Except PyErr (List (String × PyVal)) :=
  if kvs.any (fun p => p.1 == k) then
    Except.ok (kvs.filter (fun p => p.1 != k))
  else Except.error (PyErr.keyError k)

/-- The external BADS optimizer, opaque per spec §6: the sequence of candidate
points (each in `tolist()` form) at which it calls the objective callback,
and the result mapping that `bads.optimize()` returns. -/
structure Sched where
  points : List (List PFloat)
  result : List (String × PyVal)

/-- The module-level driver of `bads.py` (lines 28–32).  `arg` models
`json.loads(sys.argv[1])`: `none` when the argument is not valid JSON (the
`json.JSONDecodeError` propagates), otherwise the decoded value.  The steps:
decode the configuration, look up the five required keys, construct `BADS`
and run `bads.optimize()` (which drives `runEvals` over the opaque schedule),
`del result['fun']`, and print `FINAL_RESULT jsonify(result)`.  Returns the
lines printed to stdout, and either success (process exit 0) or the uncaught
exception (a non-zero process exit). -/
def runScript (arg : Option JVal) (sched : Sched) (stdin : List String) :
    List OutLine × Except PyErr Unit :=
  match arg with
  | none => ([], Except.error PyErr.jsonDecodeError)
  | some conf =>
    match loadBounds conf with
    | Except.error e => ([], Except.error e)
    | Except.ok _ =>
      let (lines, r) := runEvals sched.points stdin
      match r with
      | Except.error e => (lines, Except.error e)
      | Except.ok _ =>
        match delItem sched.result "fun" with
        | Except.error e => (lines, Except.error e)
        | Except.ok res =>
          match jsonify (PyVal.pyDict res) with
          | Except.error e => (lines, Except.error e)
          | Except.ok j => (lines ++ [OutLine.finalResult j], Except.ok ())

/-! ## Auxiliary predicates and concrete data -/

/-- Whether a printed line is a `FINAL_RESULT` line. -/
def OutLine.isFinal : OutLine → Bool
  | .finalResult _ => true
  | .request _ => false

mutual

/-- Already-plain data: plain Python numbers (ints and floats) and possibly
nested plain lists of them. -/
def plainVal : PyVal → Bool
  | .pyInt _ => true
  | .pyFloat _ => true
  | .pyList xs => plainValList xs
  | _ => false

/-- `plainVal` over every element of a list. -/
def plainValList : List PyVal → Bool
  | [] => true
  | x :: xs => plainVal x && plainValList xs

end

mutual

/-- JSON values that are plain numbers or nested sequences of them. -/
def plainJ : JVal → Bool
  | .jInt _ => true
  | .jNum _ => true
  | .jArr js => plainJList js
  | _ => false

/-- `plainJ` over every element of a list. -/
def plainJList : List JVal → Bool
  | [] => true
  | j :: js => plainJ j && plainJList js

end

/-- A concrete well-formed configuration (the scenario of spec §8). -/
def confEx : JVal := JVal.jObj
  [("x0", JVal.jArr [JVal.jInt 0]),
   ("lower_bounds", JVal.jArr [JVal.jInt (-1)]),
   ("upper_bounds", JVal.jArr [JVal.jInt 1]),
   ("plausible_lower_bounds", JVal.jArr [JVal.jNum (PFloat.finite (mkRat (-1) 2))]),
   ("plausible_upper_bounds", JVal.jArr [JVal.jNum (PFloat.finite (mkRat 1 2))])]

/-- A concrete one-point schedule whose result holds a numpy array and the
`fun` field. -/
def schedEx : Sched :=
  { points := [[PFloat.finite 0]],
    result := [("x", PyVal.npArray (NpArr.dim [NpArr.scalar (PFloat.finite 0)])),
               ("fun", PyVal.npFloat64 (PFloat.finite 2))] }

/-! ## Helper lemmas -/

theorem runEvals_ok :
    ∀ (ps : List (List PFloat)) (stdin : List String) (lines : List OutLine)
      (vs : List PFloat) (rest : List String),
      runEvals ps stdin = (lines, Except.ok (vs, rest)) →
      lines = ps.map OutLine.request ∧
      ∃ consumed, stdin = consumed ++ rest ∧ consumed.length = ps.length ∧
        consumed.map pyFloat = vs.map some := by
  intro ps
  induction ps with
  | nil =>
    intro stdin lines vs rest h
    simp only [runEvals, Prod.mk.injEq, Except.ok.injEq] at h
    obtain ⟨h1, h2, h3⟩ := h
    subst h1; subst h2; subst h3
    exact ⟨rfl, [], rfl, rfl, rfl⟩
  | cons x ps ih =>
    intro stdin lines vs rest h
    cases stdin with
    | nil => simp [runEvals, target] at h
    | cons line tl =>
      cases hp : pyFloat line with
      | none => simp [runEvals, target, hp] at h
      | some v =>
        simp only [runEvals, target, hp] at h
        cases hr : runEvals ps tl with
        | mk lines1 r1 =>
          rw [hr] at h
          cases r1 with
          | error e => simp at h
          | ok p =>
            obtain ⟨vs1, rest1⟩ := p
            simp only [Prod.mk.injEq, Except.ok.injEq] at h
            obtain ⟨hl, hv, hrest⟩ := h
            obtain ⟨hl1, consumed, hc1, hc2, hc3⟩ := ih tl lines1 vs1 rest1 hr
            subst hl hv hrest hl1 hc1
            exact ⟨rfl, line :: consumed, rfl, by simp [hc2], by simp [hp, hc3]⟩

theorem runEvals_bad_reply :
    ∀ (ps : List (List PFloat)) (rs : List String) (p : List PFloat)
      (qs : List (List PFloat)) (bad : String) (rest : List String),
      ps.length = rs.length →
      (∀ r ∈ rs, (pyFloat r).isSome) →
      pyFloat bad = none →
      runEvals (ps ++ p :: qs) (rs ++ bad :: rest) =
        ((ps ++ [p]).map OutLine.request, Except.error PyErr.valueError) := by
  intro ps
  induction ps with
  | nil =>
    intro rs p qs bad rest hlen hok hbad
    cases rs with
    | nil => simp [runEvals, target, hbad]
    | cons r rs => simp at hlen
  | cons x ps ih =>
    intro rs p qs bad rest hlen hok hbad
    cases rs with
    | nil => simp at hlen
    | cons r rs =>
      have hr : (pyFloat r).isSome := hok r (by simp)
      obtain ⟨v, hv⟩ := Option.isSome_iff_exists.mp hr
      have hlen' : ps.length = rs.length := by simpa using hlen
      have hok' : ∀ s ∈ rs, (pyFloat s).isSome := fun s hs => hok s (by simp [hs])
      have := ih rs p qs bad rest hlen' hok' hbad
      simp only [List.cons_append, runEvals, target, hv]
      rw [show ps.append (p :: qs) = ps ++ p :: qs from rfl, this]
      simp

theorem dumpsDict_keys :
    ∀ (kvs : List (String × PyVal)) (js : List (String × JVal)),
      dumpsDict kvs = some js → js.map Prod.fst = kvs.map Prod.fst := by
  intro kvs
  induction kvs with
  | nil =>
    intro js h
    simp only [dumpsDict, Option.some.injEq] at h
    subst h; rfl
  | cons kv kvs ih =>
    intro js h
    obtain ⟨k, v⟩ := kv
    simp only [dumpsDict] at h
    cases hd : dumps v with
    | none => rw [hd] at h; simp at h
    | some j =>
      rw [hd] at h
      cases ht : dumpsDict kvs with
      | none => rw [ht] at h; simp at h
      | some js1 =>
        rw [ht] at h
        simp only [Option.some.injEq] at h
        subst h
        simp [ih js1 ht]

theorem keys_filter (kvs : List (String × PyVal)) (k : String) :
    (kvs.filter (fun p => p.1 != k)).map Prod.fst =
      (kvs.map Prod.fst).filter (fun s => s != k) := by
  induction kvs with
  | nil => rfl
  | cons kv kvs ih =>
    cases hk : kv.1 != k with
    | false => simp [List.filter_cons, hk, ih]
    | true => simp [List.filter_cons, hk, ih]

theorem loadBounds_ok_getItem (conf : JVal)
    (t : JVal × JVal × JVal × JVal × JVal) (h : loadBounds conf = Except.ok t) :
    ∀ k ∈ requiredKeys, ∃ v, getItem conf k = Except.ok v := by
  intro k hk
  simp only [loadBounds] at h
  cases h0 : getItem conf "x0" with
  | error e => rw [h0] at h; simp at h
  | ok v0 =>
    rw [h0] at h
    cases h1 : getItem conf "lower_bounds" with
    | error e => rw [h1] at h; simp at h
    | ok v1 =>
      rw [h1] at h
      cases h2 : getItem conf "upper_bounds" with
      | error e => rw [h2] at h; simp at h
      | ok v2 =>
        rw [h2] at h
        cases h3 : getItem conf "plausible_lower_bounds" with
        | error e => rw [h3] at h; simp at h
        | ok v3 =>
          rw [h3] at h
          cases h4 : getItem conf "plausible_upper_bounds" with
          | error e => rw [h4] at h; simp at h
          | ok v4 =>
            simp only [requiredKeys, List.mem_cons, List.not_mem_nil, or_false] at hk
            rcases hk with rfl | rfl | rfl | rfl | rfl
            · exact ⟨v0, h0⟩
            · exact ⟨v1, h1⟩
            · exact ⟨v2, h2⟩
            · exact ⟨v3, h3⟩
            · exact ⟨v4, h4⟩

mutual

theorem rtVal (v : PyVal) (h : plainVal v = true) :
    ∃ j, dumps v = some j ∧ loads j = v := by
  cases v with
  | pyInt n => exact ⟨JVal.jInt n, rfl, rfl⟩
  | pyFloat q => exact ⟨JVal.jNum q, rfl, rfl⟩
  | pyList xs =>
    obtain ⟨js, h1, h2⟩ := rtList xs (by simpa [plainVal] using h)
    exact ⟨JVal.jArr js, by simp [dumps, h1], by simp [loads, h2]⟩
  | pyStr s => simp [plainVal] at h
  | pyBool b => simp [plainVal] at h
  | pyNone => simp [plainVal] at h
  | pyDict kvs => simp [plainVal] at h
  | npArray a => simp [plainVal] at h
  | npInt64 n => simp [plainVal] at h
  | npFloat64 q => simp [plainVal] at h
  | npInt32 n => simp [plainVal] at h
  | opaqueObj s => simp [plainVal] at h

theorem rtList (xs : List PyVal) (h : plainValList xs = true) :
    ∃ js, dumpsList xs = some js ∧ loadsList js = xs := by
  cases xs with
  | nil => exact ⟨[], rfl, rfl⟩
  | cons x xs =>
    simp only [plainValList, Bool.and_eq_true] at h
    obtain ⟨j, h1, h2⟩ := rtVal x h.1
    obtain ⟨js, h3, h4⟩ := rtList xs h.2
    exact ⟨j :: js, by simp [dumpsList, h1, h3], by simp [loadsList, h2, h4]⟩

end

theorem rtDict :
    ∀ (kvs : List (String × PyVal)), (∀ p ∈ kvs, plainVal p.2 = true) →
      ∃ js, dumpsDict kvs = some js ∧ loadsDict js = kvs := by
  intro kvs
  induction kvs with
  | nil => intro h; exact ⟨[], rfl, rfl⟩
  | cons kv kvs ih =>
    intro h
    obtain ⟨k, v⟩ := kv
    obtain ⟨j, h1, h2⟩ := rtVal v (h (k, v) (by simp))
    obtain ⟨js, h3, h4⟩ := ih (fun p hp => h p (by simp [hp]))
    exact ⟨(k, j) :: js, by simp [dumpsDict, h1, h3], by simp [loadsDict, h2, h4]⟩

mutual

theorem plainJ_dumpsNp (a : NpArr) : plainJ (dumpsNp a) = true := by
  cases a with
  | scalar q => rfl
  | dim xs => simpa [dumpsNp, plainJ] using plainJList_dumpsNpList xs

theorem plainJList_dumpsNpList (as : List NpArr) :
    plainJList (dumpsNpList as) = true := by
  cases as with
  | nil => rfl
  | cons a as =>
    simp only [dumpsNpList, plainJList, Bool.and_eq_true]
    exact ⟨plainJ_dumpsNp a, plainJList_dumpsNpList as⟩

end

mutual

theorem dumps_tolist (a : NpArr) : dumps (NpArr.tolist a) = some (dumpsNp a) := by
  cases a with
  | scalar q => rfl
  | dim xs =>
    simp [NpArr.tolist, dumps, dumpsNp, dumpsList_tolistList xs]

theorem dumpsList_tolistList (as : List NpArr) :
    dumpsList (NpArr.tolistList as) = some (dumpsNpList as) := by
  cases as with
  | nil => rfl
  | cons a as =>
    simp [NpArr.tolistList, dumpsList, dumpsNpList,
      dumps_tolist a, dumpsList_tolistList as]

end

/-! ## The claims -/

/-- Claim C1 (code bug): the spec says a serialization failure is caught and
logged and `jsonify` returns `str(obj)`, so that `FINAL_RESULT` is still
printed on successful optimization completion.  In the code the `except`
branch references `logging`, which is never imported, so on a result holding
a value the json module cannot encode, `jsonify` raises `NameError` and a
successful run exits non-zero without printing any `FINAL_RESULT` line. -/
theorem serialization_fallback_crashes :
    jsonify (PyVal.pyDict [("a", PyVal.opaqueObj "<object>")]) =
      Except.error (PyErr.nameError "logging") ∧
    runScript (some confEx)
      { points := [[PFloat.finite 0]],
        result := [("a", PyVal.opaqueObj "<object>"), ("fun", PyVal.pyInt 0)] }
      ["2.0"] =
      ([OutLine.request [PFloat.finite 0]], Except.error (PyErr.nameError "logging")) :=
  ⟨rfl, rfl⟩

/-- Claim C2: for every point `x`, the callback emits exactly one
`REQUEST_EVALUATION` line carrying `x.tolist()` (a plain list of numbers),
consumes exactly one stdin line and returns it parsed as a float; across a
whole run, request lines and consumed replies are in 1:1 correspondence, in
strict alternating order with no reordering or batching. -/
theorem request_reply_pairing (x : List PFloat) (stdin : List String) :
    (target x stdin).1 = OutLine.request x ∧
    (∀ v rest, (target x stdin).2 = Except.ok (v, rest) →
      ∃ line, stdin = line :: rest ∧ pyFloat line = some v) ∧
    (∀ ps lines vs rest, runEvals ps stdin = (lines, Except.ok (vs, rest)) →
      lines = ps.map OutLine.request ∧
      ∃ consumed, stdin = consumed ++ rest ∧ consumed.length = ps.length ∧
        consumed.map pyFloat = vs.map some) := by
  refine ⟨rfl, ?_, ?_⟩
  · intro v rest h
    cases stdin with
    | nil => simp [target] at h
    | cons line tl =>
      cases hp : pyFloat line with
      | none => simp [target, hp] at h
      | some w =>
        simp only [target, hp, Except.ok.injEq, Prod.mk.injEq] at h
        obtain ⟨h1, h2⟩ := h
        subst h1; subst h2
        exact ⟨line, rfl, hp⟩
  · intro ps lines vs rest h
    exact runEvals_ok ps stdin lines vs rest h

/-- Witness for `request_reply_pairing`: concrete point and reply. -/
theorem request_reply_pairing_witness :
    ∃ line, ["2.0"] = line :: ([] : List String) ∧
      pyFloat line = some (PFloat.finite (mkRat 2 1)) :=
  (request_reply_pairing [PFloat.finite 0] ["2.0"]).2.1
    (PFloat.finite (mkRat 2 1)) [] rfl

/-- Claim C3: if the CLI argument is not valid JSON, or the decoded mapping
lacks a required key, the program fails with a fatal startup error (a
non-zero exit) and prints no `REQUEST_EVALUATION` or `FINAL_RESULT` line. -/
theorem startup_failure_no_output (arg : Option JVal) (sched : Sched)
    (stdin : List String)
    (h : arg = none ∨ ∃ kvs, arg = some (JVal.jObj kvs) ∧
      ∃ k ∈ requiredKeys, ∀ p ∈ kvs, p.1 ≠ k) :
    (runScript arg sched stdin).1 = [] ∧
    ∃ e, (runScript arg sched stdin).2 = Except.error e := by
  rcases h with rfl | ⟨kvs, rfl, k, hk, hmiss⟩
  · exact ⟨rfl, PyErr.jsonDecodeError, rfl⟩
  · cases hl : loadBounds (JVal.jObj kvs) with
    | error e => simp [runScript, hl]
    | ok t =>
      obtain ⟨v, hv⟩ := loadBounds_ok_getItem _ t hl k hk
      have hfind : kvs.find? (fun p => p.1 == k) = none := by
        rw [List.find?_eq_none]
        intro p hp
        simpa using hmiss p hp
      simp [getItem, hfind] at hv

/-- Witness for `startup_failure_no_output`: the argument is not valid
JSON. -/
theorem startup_failure_no_output_witness :
    (runScript none { points := [], result := [] } []).1 = [] ∧
    ∃ e, (runScript none { points := [], result := [] } []).2 =
      Except.error e :=
  startup_failure_no_output none { points := [], result := [] } [] (Or.inl rfl)

/-- Claim C4: a reply that `float` cannot parse makes the callback raise
`ValueError`; nothing catches it, the run fails right after the
corresponding `REQUEST_EVALUATION` line, and no further requests are
issued — no retry. -/
theorem bad_reply_fatal (confJ : JVal) (sched : Sched)
    (t : JVal × JVal × JVal × JVal × JVal)
    (ps qs : List (List PFloat)) (p : List PFloat)
    (rs : List String) (bad : String) (rest : List String)
    (hconf : loadBounds confJ = Except.ok t)
    (hpts : sched.points = ps ++ p :: qs)
    (hlen : ps.length = rs.length)
    (hok : ∀ r ∈ rs, (pyFloat r).isSome)
    (hbad : pyFloat bad = none) :
    runScript (some confJ) sched (rs ++ bad :: rest) =
      ((ps ++ [p]).map OutLine.request, Except.error PyErr.valueError) := by
  have hre := runEvals_bad_reply ps rs p qs bad rest hlen hok hbad
  simp only [runScript, hconf, hpts, hre]

/-- Witness for `bad_reply_fatal`: the reply `abc` to the first request. -/
theorem bad_reply_fatal_witness :
    runScript (some confEx) schedEx ["abc"] =
      ([OutLine.request [PFloat.finite 0]], Except.error PyErr.valueError) :=
  bad_reply_fatal confEx schedEx
    (JVal.jArr [JVal.jInt 0], JVal.jArr [JVal.jInt (-1)], JVal.jArr [JVal.jInt 1],
     JVal.jArr [JVal.jNum (PFloat.finite (mkRat (-1) 2))],
     JVal.jArr [JVal.jNum (PFloat.finite (mkRat 1 2))])
    [] [] [PFloat.finite 0] [] "abc" []
    rfl rfl rfl (fun r hr => absurd hr (List.not_mem_nil r)) rfl

/-- Claim C5: on every successful run the key `fun` is deleted from the
optimizer's result before serialization: the serializer receives exactly the
result minus its `fun` entry (all other fields unchanged, in order), and the
object encoded on the `FINAL_RESULT` line has no `fun` key. -/
theorem fun_removed_before_serialization (confJ : JVal) (sched : Sched)
    (stdin : List String) (t : JVal × JVal × JVal × JVal × JVal)
    (lines : List OutLine) (vs : List PFloat) (rest : List String)
    (js : List (String × JVal))
    (hconf : loadBounds confJ = Except.ok t)
    (hev : runEvals sched.points stdin = (lines, Except.ok (vs, rest)))
    (hfun : sched.result.any (fun p => p.1 == "fun") = true)
    (hser : dumpsDict (sched.result.filter (fun p => p.1 != "fun")) = some js) :
    runScript (some confJ) sched stdin =
      (lines ++ [OutLine.finalResult (JVal.jObj js)], Except.ok ()) ∧
    jsonify (PyVal.pyDict (sched.result.filter (fun p => p.1 != "fun"))) =
      Except.ok (JVal.jObj js) ∧
    js.map Prod.fst = (sched.result.map Prod.fst).filter (fun s => s != "fun") ∧
    ∀ q ∈ js, q.1 ≠ "fun" := by
  have hdel : delItem sched.result "fun" =
      Except.ok (sched.result.filter (fun p => p.1 != "fun")) := by
    simp [delItem, hfun]
  have hjson : jsonify (PyVal.pyDict (sched.result.filter (fun p => p.1 != "fun"))) =
      Except.ok (JVal.jObj js) := by
    simp [jsonify, dumps, hser]
  have hkeys := dumpsDict_keys _ js hser
  have hkeys2 : js.map Prod.fst =
      (sched.result.map Prod.fst).filter (fun s => s != "fun") := by
    rw [hkeys, keys_filter]
  refine ⟨?_, hjson, hkeys2, ?_⟩
  · simp only [runScript, hconf, hev, hdel, hjson]
  · intro q hq
    have hm : q.1 ∈ js.map Prod.fst := List.mem_map_of_mem Prod.fst hq
    rw [hkeys2] at hm
    have := List.of_mem_filter hm
    simpa using this

/-- Witness for `fun_removed_before_serialization`: the spec §8 scenario. -/
theorem fun_removed_before_serialization_witness :
    runScript (some confEx) schedEx ["2.0"] =
      ([OutLine.request [PFloat.finite 0]] ++
        [OutLine.finalResult (JVal.jObj
          [("x", JVal.jArr [JVal.jNum (PFloat.finite 0)])])],
       Except.ok ()) ∧
    jsonify (PyVal.pyDict (schedEx.result.filter (fun p => p.1 != "fun"))) =
      Except.ok (JVal.jObj [("x", JVal.jArr [JVal.jNum (PFloat.finite 0)])]) ∧
    ([("x", JVal.jArr [JVal.jNum (PFloat.finite 0)])].map Prod.fst) =
      ((schedEx.result.map Prod.fst).filter (fun s => s != "fun")) ∧
    ∀ q ∈ [("x", JVal.jArr [JVal.jNum (PFloat.finite 0)])], q.1 ≠ "fun" :=
  fun_removed_before_serialization confEx schedEx ["2.0"]
    (JVal.jArr [JVal.jInt 0], JVal.jArr [JVal.jInt (-1)], JVal.jArr [JVal.jInt 1],
     JVal.jArr [JVal.jNum (PFloat.finite (mkRat (-1) 2))],
     JVal.jArr [JVal.jNum (PFloat.finite (mkRat 1 2))])
    [OutLine.request [PFloat.finite 0]] [PFloat.finite (mkRat 2 1)] []
    [("x", JVal.jArr [JVal.jNum (PFloat.finite 0)])]
    rfl rfl rfl rfl

/-- Claim C6: `jsonify` round-trips already-plain data: for every mapping
whose values are plain numbers and (possibly nested) plain sequences of
numbers, decoding the JSON produced by `jsonify` reproduces the same
structure unchanged. -/
theorem jsonify_roundtrip_plain (kvs : List (String × PyVal))
    (h : ∀ p ∈ kvs, plainVal p.2 = true) :
    ∃ js, jsonify (PyVal.pyDict kvs) = Except.ok (JVal.jObj js) ∧
      loads (JVal.jObj js) = PyVal.pyDict kvs := by
  obtain ⟨js, h1, h2⟩ := rtDict kvs h
  exact ⟨js, by simp [jsonify, dumps, h1], by simp [loads, h2]⟩

/-- Witness for `jsonify_roundtrip_plain`: a mapping with a number and a
nested sequence. -/
theorem jsonify_roundtrip_plain_witness :
    ∃ js, jsonify (PyVal.pyDict
        [("a", PyVal.pyFloat (PFloat.finite (mkRat 1 2))),
         ("b", PyVal.pyList [PyVal.pyInt 3,
            PyVal.pyList [PyVal.pyFloat (PFloat.finite (mkRat 5 1))]])]) =
      Except.ok (JVal.jObj js) ∧
    loads (JVal.jObj js) = PyVal.pyDict
        [("a", PyVal.pyFloat (PFloat.finite (mkRat 1 2))),
         ("b", PyVal.pyList [PyVal.pyInt 3,
            PyVal.pyList [PyVal.pyFloat (PFloat.finite (mkRat 5 1))]])] :=
  jsonify_roundtrip_plain _ (by intro p hp; fin_cases hp <;> rfl)

/-- Claim C7 is false as stated: `np.int32` is a numpy integer scalar type,
but the serializer does not convert it into a plain number — the encoder's
`isinstance` checks cover only `np.ndarray`, `np.int64` and `np.float64`, so
`json.JSONEncoder.default` raises `TypeError` for an `np.int32` value. -/
theorem np_scalar_not_converted :
    dumps (PyVal.npInt32 5) = none ∧
    NumpyEncoder.default (PyVal.npInt32 5) = none ∧
    jsonify (PyVal.pyDict [("x", PyVal.npInt32 5)]) =
      Except.error (PyErr.nameError "logging") :=
  ⟨rfl, rfl, rfl⟩

/-- Claim C7 (amended): the serializer recursively converts numpy arrays and
the numpy scalar types `np.int64` and `np.float64` appearing in the result
into plain nested sequences and plain numbers (for an array, the
serialization of its `tolist()`). -/
theorem numpy_conversion :
    (∀ a : NpArr, dumps (PyVal.npArray a) = some (dumpsNp a) ∧
      plainJ (dumpsNp a) = true ∧
      dumps (NpArr.tolist a) = some (dumpsNp a)) ∧
    (∀ n : Int, dumps (PyVal.npInt64 n) = some (JVal.jInt n)) ∧
    (∀ q : PFloat, dumps (PyVal.npFloat64 q) = some (JVal.jNum q)) :=
  ⟨fun a => ⟨rfl, plainJ_dumpsNp a, dumps_tolist a⟩,
   fun _ => rfl, fun _ => rfl⟩

/-- Claim C8: on normal completion the program emits exactly one
`FINAL_RESULT` line, at the very end: after the optimization has completed
and after every `REQUEST_EVALUATION` line. -/
theorem final_result_once_at_end (confJ : JVal) (sched : Sched)
    (stdin : List String) (t : JVal × JVal × JVal × JVal × JVal)
    (lines : List OutLine) (vs : List PFloat) (rest : List String)
    (res : List (String × PyVal)) (j : JVal)
    (hconf : loadBounds confJ = Except.ok t)
    (hev : runEvals sched.points stdin = (lines, Except.ok (vs, rest)))
    (hdel : delItem sched.result "fun" = Except.ok res)
    (hser : jsonify (PyVal.pyDict res) = Except.ok j) :
    runScript (some confJ) sched stdin =
      (sched.points.map OutLine.request ++ [OutLine.finalResult j],
       Except.ok ()) ∧
    (sched.points.map OutLine.request ++ [OutLine.finalResult j]).filter
        OutLine.isFinal = [OutLine.finalResult j] := by
  have hlines := (runEvals_ok _ _ _ _ _ hev).1
  constructor
  · rw [← hlines]
    simp only [runScript, hconf, hev, hdel, hser]
  · rw [List.filter_append]
    have hnone : (sched.points.map OutLine.request).filter OutLine.isFinal = [] := by
      rw [List.filter_eq_nil_iff]
      intro l hl
      obtain ⟨y, hy, rfl⟩ := List.mem_map.mp hl
      simp [OutLine.isFinal]
    simp [hnone, OutLine.isFinal]

/-- Witness for `final_result_once_at_end`: the spec §8 scenario. -/
theorem final_result_once_at_end_witness :
    runScript (some confEx) schedEx ["2.0"] =
      (schedEx.points.map OutLine.request ++
        [OutLine.finalResult (JVal.jObj
          [("x", JVal.jArr [JVal.jNum (PFloat.finite 0)])])],
       Except.ok ()) ∧
    (schedEx.points.map OutLine.request ++
      [OutLine.finalResult (JVal.jObj
        [("x", JVal.jArr [JVal.jNum (PFloat.finite 0)])])]).filter
        OutLine.isFinal =
      [OutLine.finalResult (JVal.jObj
        [("x", JVal.jArr [JVal.jNum (PFloat.finite 0)])])] :=
  final_result_once_at_end confEx schedEx ["2.0"]
    (JVal.jArr [JVal.jInt 0], JVal.jArr [JVal.jInt (-1)], JVal.jArr [JVal.jInt 1],
     JVal.jArr [JVal.jNum (PFloat.finite (mkRat (-1) 2))],
     JVal.jArr [JVal.jNum (PFloat.finite (mkRat 1 2))])
    [OutLine.request [PFloat.finite 0]] [PFloat.finite (mkRat 2 1)] []
    [("x", PyVal.npArray (NpArr.dim [NpArr.scalar (PFloat.finite 0)]))]
    (JVal.jObj [("x", JVal.jArr [JVal.jNum (PFloat.finite 0)])])
    rfl rfl rfl rfl

/-- Claim C9 (implicit): `del result['fun']` is unconditional, so if the
optimizer's result lacks the key `fun` the program raises `KeyError` and
exits non-zero without printing any `FINAL_RESULT` line, even though the
optimization itself succeeded. -/
theorem missing_fun_key_crash (confJ : JVal) (sched : Sched)
    (stdin : List String) (t : JVal × JVal × JVal × JVal × JVal)
    (lines : List OutLine) (vs : List PFloat) (rest : List String)
    (hconf : loadBounds confJ = Except.ok t)
    (hev : runEvals sched.points stdin = (lines, Except.ok (vs, rest)))
    (hfun : ∀ p ∈ sched.result, p.1 ≠ "fun") :
    runScript (some confJ) sched stdin =
      (lines, Except.error (PyErr.keyError "fun")) ∧
    ∀ l ∈ lines, OutLine.isFinal l = false := by
  have hdel : delItem sched.result "fun" =
      Except.error (PyErr.keyError "fun") := by
    have hany : sched.result.any (fun p => p.1 == "fun") = false := by
      rw [List.any_eq_false]
      intro p hp
      simpa using hfun p hp
    simp [delItem, hany]
  constructor
  · simp only [runScript, hconf, hev, hdel]
  · intro l hl
    have hlines := (runEvals_ok _ _ _ _ _ hev).1
    subst hlines
    obtain ⟨y, hy, rfl⟩ := List.mem_map.mp hl
    rfl

/-- Witness for `missing_fun_key_crash`: a successful one-point run whose
result does not contain the key `fun`. -/
theorem missing_fun_key_crash_witness :
    runScript (some confEx)
      { points := [[PFloat.finite 0]], result := [("x", PyVal.pyInt 3)] }
      ["2.0"] =
      ([OutLine.request [PFloat.finite 0]],
       Except.error (PyErr.keyError "fun")) ∧
    ∀ l ∈ [OutLine.request [PFloat.finite 0]], OutLine.isFinal l = false :=
  missing_fun_key_crash confEx
    { points := [[PFloat.finite 0]], result := [("x", PyVal.pyInt 3)] }
    ["2.0"]
    (JVal.jArr [JVal.jInt 0], JVal.jArr [JVal.jInt (-1)], JVal.jArr [JVal.jInt 1],
     JVal.jArr [JVal.jNum (PFloat.finite (mkRat (-1) 2))],
     JVal.jArr [JVal.jNum (PFloat.finite (mkRat 1 2))])
    [OutLine.request [PFloat.finite 0]] [PFloat.finite (mkRat 2 1)] []
    rfl rfl (by intro p hp; fin_cases hp; simp)

/-- Claim C10: the callback accepts as a reply exactly the strings Python's
`float` accepts — including integer literals, scientific notation,
surrounding whitespace, digit-group underscores and the special literals
`inf`, `-inf` and `nan` — returning the corresponding value, and rejects
exactly the strings `float` rejects; the accepted language is strictly
larger than ordinary floating-point literals. -/
theorem reply_float_language :
    (∀ (x : List PFloat) (line : String) (rest : List String),
      (target x (line :: rest)).2 =
        match pyFloat line with
        | some v => Except.ok (v, rest)
        | none => Except.error PyErr.valueError) ∧
    pyFloat "3" = some (PFloat.finite (mkRat 3 1)) ∧
    pyFloat "1e3" = some (PFloat.finite (mkRat 1000 1)) ∧
    pyFloat " 2.5 " = some (PFloat.finite (mkRat 5 2)) ∧
    pyFloat "inf" = some PFloat.inf ∧
    pyFloat "-inf" = some PFloat.negInf ∧
    pyFloat "nan" = some PFloat.nan ∧
    pyFloat "Infinity" = some PFloat.inf ∧
    pyFloat "1_000" = some (PFloat.finite (mkRat 1000 1)) ∧
    pyFloat "abc" = none ∧
    pyFloat "" = none ∧
    pyFloat "1.5.2" = none :=
  ⟨fun x line rest => rfl, by decide⟩
